import Mathlib

/-
Verification of the convex-hull GDP transformation
(pyomo/gdp/plugins/chull.py, class ConvexHull_Transformation).

The development shallowly embeds the data the transformation manipulates:
expression trees over rational constants and numbered variables, scalar
constraints with optional lower/upper bounds, the component tree of a
disjunct, the per-disjunct transformation state, disjunctions, and the
model-level driver.  Each embedded function mirrors one method of the
source class; failures raised by the Python code (GDP_Error, RuntimeError,
NameError) are modelled with an `Except` error type.
-/

set_option autoImplicit false

namespace Chull

/-- Expression trees: the opaque pyomo expression objects the
transformation clones, substitutes into and composes.  Constants are
rationals (Python floats are exact decimal literals here), variables are
numbered. -/
inductive Expr where
  | const : ℚ → Expr
  | var : ℕ → Expr
  | add : Expr → Expr → Expr
  | sub : Expr → Expr → Expr
  | mul : Expr → Expr → Expr
  | div : Expr → Expr → Expr
deriving DecidableEq, Repr

/-- Evaluation of an expression under a valuation of the variables
(rational-field semantics; division by zero follows the field convention). -/
def Expr.eval (ρ : ℕ → ℚ) : Expr → ℚ
  | .const q => q
  | .var v => ρ v
  | .add a b => a.eval ρ + b.eval ρ
  | .sub a b => a.eval ρ - b.eval ρ
  | .mul a b => a.eval ρ * b.eval ρ
  | .div a b => a.eval ρ / b.eval ρ

/-- `clone_expression(e, substitute=σ)`: structural clone with the
substitution map applied at the variable leaves. -/
def Expr.subst (σ : ℕ → Option Expr) : Expr → Expr
  | .const q => .const q
  | .var v =>
    match σ v with
    | some e => e
    | none => .var v
  | .add a b => .add (a.subst σ) (b.subst σ)
  | .sub a b => .sub (a.subst σ) (b.subst σ)
  | .mul a b => .mul (a.subst σ) (b.subst σ)
  | .div a b => .div (a.subst σ) (b.subst σ)

/-- The variables of an expression in left-to-right tree order (the order
`identify_variables` yields them, before de-duplication). -/
def Expr.varList : Expr → List ℕ
  | .const _ => []
  | .var v => [v]
  | .add a b => a.varList ++ b.varList
  | .sub a b => a.varList ++ b.varList
  | .mul a b => a.varList ++ b.varList
  | .div a b => a.varList ++ b.varList

/-- `polynomial_degree()`: `some d` for a polynomial body of degree `d`,
`none` for a nonpolynomial or indeterminate body (pyomo's `None`). -/
def Expr.polyDegree : Expr → Option ℕ
  | .const _ => some 0
  | .var _ => some 1
  | .add a b =>
    match a.polyDegree, b.polyDegree with
    | some m, some n => some (max m n)
    | _, _ => none
  | .sub a b =>
    match a.polyDegree, b.polyDegree with
    | some m, some n => some (max m n)
    | _, _ => none
  | .mul a b =>
    match a.polyDegree, b.polyDegree with
    | some m, some n => some (m + n)
    | _, _ => none
  | .div a b =>
    match b.polyDegree with
    | some 0 => a.polyDegree
    | _ => none

/-- `NL = c.body.polynomial_degree() not in (0, 1)` (line 568). -/
def isNL (e : Expr) : Bool :=
  e.polyDegree != some 0 && e.polyDegree != some 1

/-- The three perspective-function formulation modes (lines 50, 66, 81). -/
def NL_Mode_LeeGrossmann : ℕ := 1

def NL_Mode_GrossmannLee : ℕ := 2

def NL_Mode_FurmanSawayaGrossmann : ℕ := 3

/-- `EPS = 1e-2` (line 83). -/
def EPS : ℚ := 1 / 100

/-- The failures the transformation can raise: the GDP_Error conditions,
the RuntimeError for an unknown formulation mode, and the NameError the
interpreter raises in `_transform_block_on_disjunct` (see below). -/
inductive GdpError where
  | conflictingMetadata
  | unboundedVariable : ℕ → GdpError
  | unsupportedEntityKind
  | orderingViolationDisjunction
  | orderingViolationDisjunct
  | nonExclusiveDisjunction
  | unknownNLMode
  | targetNotFound : String → GdpError
  | unsupportedTargetKind
  | nameError : String → GdpError
  | missingInfoAttr
deriving DecidableEq, Repr

/-- A scalar constraint: body, optional numeric lower/upper bounds, active
flag. -/
structure ConstraintData where
  body : Expr
  lower : Option ℚ
  upper : Option ℚ
  active : Bool
deriving DecidableEq, Repr

/-- The `lbub` index of a generated constraint (line 130). -/
inductive Side where
  | lb
  | ub
deriving DecidableEq, Repr

/-- A generated relational constraint: `geC l r` is `l ≥ r`, `leC l r` is
`l ≤ r`. -/
inductive RelCons where
  | geC : Expr → Expr → RelCons
  | leC : Expr → Expr → RelCons
deriving DecidableEq, Repr

/-- Truth of a generated relational constraint under a valuation. -/
def RelCons.holds (ρ : ℕ → ℚ) : RelCons → Prop
  | .geC l r => r.eval ρ ≤ l.eval ρ
  | .leC l r => l.eval ρ ≤ r.eval ρ

/-- One entry added to the new constraint container: the `lbub` index and
the relational expression. -/
structure Rewritten where
  side : Side
  cons : RelCons
deriving DecidableEq, Repr

/-- `dict((var, subs/d) for var, subs in iteritems(σ))`: divide every
substitute by a common denominator expression (lines 582-584, 589-592,
596-600). -/
def divMap (σ : ℕ → Option Expr) (d : Expr) : ℕ → Option Expr :=
  fun v => (σ v).map (fun e => Expr.div e d)

/-- `var_substitute_map` (line 427): each disaggregation-set variable maps
to its disaggregated copy, given by `dis`. -/
def varMapOf (dset : List ℕ) (dis : ℕ → ℕ) : ℕ → Option Expr :=
  fun v => if v ∈ dset then some (.var (dis v)) else none

/-- `zero_substitute_map` (line 429): each disaggregation-set variable maps
to the constant 0. -/
def zeroMapOf (dset : List ℕ) : ℕ → Option Expr :=
  fun v => if v ∈ dset then some (.const 0) else none

/-- `((1-EPS)*y + EPS)` (lines 599, 602); Python folds `1 - EPS` to a
numeric constant before building the expression. -/
def fsgDenom (y : ℕ) : Expr :=
  .add (.mul (.const (1 - EPS)) (.var y)) (.const EPS)

/-- `_xform_constraint` for one scalar constraint datum (lines 562-635):
skip if inactive, compute `NL`, compute `h_0` exactly when the source does
(`Option` models the Python local being undefined otherwise), build the
rewritten body according to degree and mode, and emit a `(side, relation)`
entry for each bound present.  `y` is the index of the disjunct's
indicator variable. -/
def xformConstraintData (mode : ℕ) (y : ℕ) (varMap zeroMap : ℕ → Option Expr)
    (c : ConstraintData) : Except GdpError (List Rewritten) :=
  if c.active = false then .ok []
  else
    let NL := isNL c.body
    let h0 : Option Expr :=
      if NL = false ∨ mode = NL_Mode_FurmanSawayaGrossmann
      then some (c.body.subst zeroMap) else none
    let expr0 := c.body.subst varMap
    let exprE : Except GdpError Expr :=
      if NL = true then
        if mode = NL_Mode_LeeGrossmann then
          .ok (.mul (c.body.subst (divMap varMap (.var y))) (.var y))
        else if mode = NL_Mode_GrossmannLee then
          .ok (.mul (.add (.var y) (.const EPS))
                (c.body.subst (divMap varMap (.add (.var y) (.const EPS)))))
        else if mode = NL_Mode_FurmanSawayaGrossmann then
          .ok (.sub
                (.mul (fsgDenom y) (c.body.subst (divMap varMap (fsgDenom y))))
                (.mul (.mul (.const EPS) (h0.getD (.const 0)))
                  (.sub (.const 1) (.var y))))
        else .error .unknownNLMode
      else .ok expr0
    match exprE with
    | .error e => .error e
    | .ok expr =>
      let lbCons : List Rewritten :=
        match c.lower with
        | none => []
        | some L =>
          if NL = true then
            [⟨.lb, .geC expr (.mul (.const L) (.var y))⟩]
          else
            [⟨.lb, .geC (.sub expr (.mul (.sub (.const 1) (.var y))
                          (h0.getD (.const 0))))
                (.mul (.const L) (.var y))⟩]
      let ubCons : List Rewritten :=
        match c.upper with
        | none => []
        | some U =>
          if NL = true then
            [⟨.ub, .leC expr (.mul (.const U) (.var y))⟩]
          else
            [⟨.ub, .leC (.sub expr (.mul (.sub (.const 1) (.var y))
                          (h0.getD (.const 0))))
                (.mul (.const U) (.var y))⟩]
      .ok (lbCons ++ ubCons)

/-- The output the spec predicts for a linear (degree 0 or 1) constraint:
for each bound present, `expr - (1-y)*h0 ≥ L*y` resp. `≤ U*y`
(spec section 4.4). -/
def specLinearRewrite (y : ℕ) (expr h0 : Expr) (lower upper : Option ℚ) :
    List Rewritten :=
  (match lower with
   | none => []
   | some L =>
     [⟨.lb, .geC (.sub expr (.mul (.sub (.const 1) (.var y)) h0))
         (.mul (.const L) (.var y))⟩]) ++
  (match upper with
   | none => []
   | some U =>
     [⟨.ub, .leC (.sub expr (.mul (.sub (.const 1) (.var y)) h0))
         (.mul (.const U) (.var y))⟩])

/-- The output the spec predicts for a nonlinear constraint: `expr ≥ L*y`
resp. `expr ≤ U*y` for each bound present (spec section 4.4). -/
def specNLRewrite (y : ℕ) (expr : Expr) (lower upper : Option ℚ) :
    List Rewritten :=
  (match lower with
   | none => []
   | some L => [⟨.lb, .geC expr (.mul (.const L) (.var y))⟩]) ++
  (match upper with
   | none => []
   | some U => [⟨.ub, .leC expr (.mul (.const U) (.var y))⟩])

/-- The rewritten body the spec predicts for the numerically-robust mode:
`((1-EPS)*y+EPS) * body[v := disagg(v)/((1-EPS)*y+EPS)] - EPS*h0*(1-y)`
(spec section 4.4, numerically-robust bullet). -/
def specFSGBody (y : ℕ) (body : Expr) (varMap : ℕ → Option Expr) (h0 : Expr) :
    Expr :=
  .sub (.mul (fsgDenom y) (body.subst (divMap varMap (fsgDenom y))))
    (.mul (.mul (.const EPS) h0) (.sub (.const 1) (.var y)))

/-- A component found in the component map of a disjunct (or of a block
nested in one).  The constructors cover the kinds the handler table of
`ConvexHull_Transformation.__init__` (lines 92-102) registers, plus two
representative kinds that are absent from the table (pyomo `Objective`
and named `Expression` components). -/
inductive Comp where
  | constraintC : ConstraintData → Comp
  | varC : Comp
  | connectorC : Comp
  | paramC : Comp
  | setCompC : Comp
  | suffixC : Comp
  | disjunctionC : Bool → Comp
  | disjunctC : Bool → Comp
  | blockC : Bool → List Comp → Comp
  | objectiveC : Bool → Comp
  | exprCompC : Bool → Comp

/-- The `hasattr(obj, 'active') and not obj.active` test of line 451:
components without an active flag count as active. -/
def compActive : Comp → Bool
  | .constraintC c => c.active
  | .varC => true
  | .connectorC => true
  | .paramC => true
  | .setCompC => true
  | .suffixC => true
  | .disjunctionC a => a
  | .disjunctC a => a
  | .blockC a _ => a
  | .objectiveC a => a
  | .exprCompC a => a

/-- What `self.handlers.get(obj.type(), None)` (line 453) yields for a
component: a callable handler, a `False` pass-through entry, or `None`
(kind absent from the table). -/
inductive HandlerEntry where
  | registered
  | passThrough
  | missing
deriving DecidableEq, Repr

/-- The handler table of lines 92-102: Constraint, Disjunction, Disjunct
and Block map to callables; Var, Connector, Param, Set and Suffix map to
`False`; every other kind is absent. -/
def handlersGet : Comp → HandlerEntry
  | .constraintC _ => .registered
  | .varC => .passThrough
  | .connectorC => .passThrough
  | .paramC => .passThrough
  | .setCompC => .passThrough
  | .suffixC => .passThrough
  | .disjunctionC _ => .registered
  | .disjunctC _ => .registered
  | .blockC _ _ => .registered
  | .objectiveC _ => .missing
  | .exprCompC _ => .missing

/-- Dispatch of a registered handler on one active component.  An active
Disjunction or Disjunct inside the disjunct raises the ordering error of
`_warn_for_active_disjunction`/`_warn_for_active_disjunct` (lines
467-519; the all-members-inactive container escape of the indexed case is
not reachable for the scalar components modelled here).  A nested Block
dispatches `_transform_block_on_disjunct` (lines 522-532), whose body
calls `self._transform_block_components(block, disjunct, relaxationBlock,
varSet, infodict)`: the name `varSet` is not defined in that scope (and
the call is two arguments short), so the interpreter raises a NameError
before anything inside the block is visited. -/
def transformComp (mode y : ℕ) (varMap zeroMap : ℕ → Option Expr) :
    Comp → Except GdpError (List Rewritten)
  | .constraintC c => xformConstraintData mode y varMap zeroMap c
  | .disjunctionC _ => .error .orderingViolationDisjunction
  | .disjunctC _ => .error .orderingViolationDisjunct
  | .blockC _ _ => .error (.nameError "varSet")
  | _ => .ok []

/-- `_transform_block_components` (lines 443-464): skip inactive
components, fail on a kind with no handler, skip pass-through kinds,
dispatch registered handlers, accumulating the rewritten constraints. -/
def transformBlockComponents (mode y : ℕ) (varMap zeroMap : ℕ → Option Expr) :
    List Comp → Except GdpError (List Rewritten)
  | [] => .ok []
  | comp :: rest =>
    if compActive comp = false then
      transformBlockComponents mode y varMap zeroMap rest
    else
      match handlersGet comp with
      | .missing => .error .unsupportedEntityKind
      | .passThrough => transformBlockComponents mode y varMap zeroMap rest
      | .registered =>
        match transformComp mode y varMap zeroMap comp with
        | .error e => .error e
        | .ok rws =>
          match transformBlockComponents mode y varMap zeroMap rest with
          | .error e => .error e
          | .ok rest' => .ok (rws ++ rest')

/-- The two big-M bound constraints generated for one disaggregated
variable (lines 422-423): `lbLhs ≤ lbRhs` and `ubLhs ≤ ubRhs`. -/
structure BigmCons where
  srcVar : ℕ
  lbLhs : Expr
  lbRhs : Expr
  ubLhs : Expr
  ubRhs : Expr
deriving DecidableEq, Repr

/-- The variable loop of `_transform_disjunct` (lines 402-425): for each
variable of the disaggregation set, require both bounds (else the
GDP_Error of line 415, modelled as `unboundedVariable`), and emit
`indicator_var*lb ≤ disaggregatedVar` and
`disaggregatedVar ≤ indicator_var*ub`.  `dis` supplies the fresh index of
each disaggregated copy (fresh naming is the external
`unique_component_name` collaborator). -/
def processVarSet (y : ℕ) (bounds : ℕ → Option ℚ × Option ℚ) (dis : ℕ → ℕ) :
    List ℕ → Except GdpError (List BigmCons)
  | [] => .ok []
  | v :: rest =>
    match (bounds v).1, (bounds v).2 with
    | some lb, some ub =>
      match processVarSet y bounds dis rest with
      | .error e => .error e
      | .ok bcs =>
        .ok (⟨v, .mul (.var y) (.const lb), .var (dis v),
              .var (dis v), .mul (.var y) (.const ub)⟩ :: bcs)
    | _, _ => .error (.unboundedVariable v)

/-- The state of a disjunct as `_transform_disjunct` observes it: active
flag, indicator-variable index, whether a `_gdp_transformation_info`
attribute exists, whether that attribute is a dict, and the `relaxed` and
`chull` entries of the dict; `comps` is the disjunct's component map. -/
structure DisjunctState where
  active : Bool
  indicatorVar : ℕ
  hasInfo : Bool
  infoIsDict : Bool
  infoRelaxed : Bool
  infoChull : Bool
  comps : List Comp

/-- What one relaxed disjunct contributes to its relaxation sub-block:
the big-M bound constraints of its disaggregated variables and the
rewritten constraints. -/
structure RelaxationRecord where
  bigmCons : List BigmCons
  rewritten : List Rewritten
deriving DecidableEq, Repr

/-- The observable outcome of `_transform_disjunct` on one disjunct:
indicator fixed to 0 and nothing created (user-deactivated path, line
374), an early return with nothing created (already chull-relaxed, line
378), or a freshly populated relaxation sub-block. -/
inductive DisjunctResult where
  | fixedZero
  | skipped
  | relaxed : RelaxationRecord → DisjunctResult
deriving DecidableEq, Repr

/-- `_transform_disjunct` (lines 354-440): scream if the info attribute is
not a dict; fix the indicator to 0 and stop for a user-deactivated,
never-relaxed disjunct; stop for a disjunct already carrying a `chull`
entry; otherwise create the relaxation sub-block, disaggregate `varSet`
and rewrite the disjunct's components with the two substitution maps
built from the disaggregated-variable mapping. -/
def transformDisjunct (mode : ℕ) (bounds : ℕ → Option ℚ × Option ℚ)
    (dis : ℕ → ℕ) (st : DisjunctState) (varSet : List ℕ) :
    Except GdpError DisjunctResult :=
  if st.hasInfo = true ∧ st.infoIsDict = false then .error .conflictingMetadata
  else
    let relaxed := st.hasInfo && st.infoRelaxed
    let chull := st.hasInfo && st.infoChull
    if st.active = false ∧ relaxed = false then .ok .fixedZero
    else if chull = true then .ok .skipped
    else
      match processVarSet st.indicatorVar bounds dis varSet with
      | .error e => .error e
      | .ok bcs =>
        match transformBlockComponents mode st.indicatorVar
            (varMapOf varSet dis) (zeroMapOf varSet) st.comps with
        | .error e => .error e
        | .ok rws => .ok (.relaxed ⟨bcs, rws⟩)

mutual

/-- The active constraints of one component, descending into active
nested blocks: `component_objects(Constraint, active=True,
descend_into=Block)` as used at lines 312-316. -/
def activeConstraintsComp : Comp → List ConstraintData
  | .constraintC c => if c.active then [c] else []
  | .blockC a children => if a then activeConstraintsList children else []
  | _ => []

/-- The active constraints of a component list, in declaration order. -/
def activeConstraintsList : List Comp → List ConstraintData
  | [] => []
  | comp :: rest => activeConstraintsComp comp ++ activeConstraintsList rest

end

/-- One disjunction datum: the `xor` flag and the list of its disjuncts
in declaration order. -/
structure DisjunctionData where
  xor : Bool
  disjuncts : List DisjunctState

/-- The variable-collection loop of `_transformDisjunctionData` (lines
309-326): the unfixed variables referenced by any active constraint
inside any disjunct, first-seen order, de-duplicated. -/
def collectVarSet (isFixed : ℕ → Bool) (disjuncts : List DisjunctState) :
    List ℕ :=
  disjuncts.foldl (fun acc dj =>
    (activeConstraintsList dj.comps).foldl (fun acc2 c =>
      (c.body.varList.filter (fun v => !isFixed v)).foldl
        (fun a v => if v ∈ a then a else a ++ [v]) acc2) acc) []

/-- `or_expr = 0; for disjunct: or_expr += disjunct.indicator_var`
(lines 330-332). -/
def orExprOf (disjuncts : List DisjunctState) : Expr :=
  disjuncts.foldl (fun e dj => .add e (.var dj.indicatorVar)) (.const 0)

/-- The loop `for disjunct in obj.disjuncts: self._transform_disjunct(...)`
(lines 331-333); `dis j v` is the disaggregated copy of variable `v` in
the `j`-th disjunct. -/
def transformDisjunctList (mode : ℕ) (bounds : ℕ → Option ℚ × Option ℚ)
    (dis : ℕ → ℕ → ℕ) (varSet : List ℕ) :
    List DisjunctState → ℕ → Except GdpError (List DisjunctResult)
  | [], _ => .ok []
  | dj :: rest, j =>
    match transformDisjunct mode bounds (dis j) dj varSet with
    | .error e => .error e
    | .ok r =>
      match transformDisjunctList mode bounds dis varSet rest (j + 1) with
      | .error e => .error e
      | .ok rs => .ok (r :: rs)

/-- `disaggregatedExpr = 0; for disjunct: disaggregatedExpr +=
disjunct._gdp_transformation_info['disaggregatedVars'][var]` (lines
337-341).  The lookup only resolves on a disjunct relaxed in this run; on
a disjunct that went through the fixed-to-zero or early-return path the
attribute chain is missing (modelled as `missingInfoAttr`). -/
def disaggExprAux (dis : ℕ → ℕ → ℕ) (v : ℕ) :
    ℕ → Expr → List DisjunctResult → Except GdpError Expr
  | _, acc, [] => .ok acc
  | j, acc, r :: rest =>
    match r with
    | .relaxed _ => disaggExprAux dis v (j + 1) (.add acc (.var (dis j v))) rest
    | _ => .error .missingInfoAttr

/-- The disaggregation-constraint loop of lines 336-351: for the `i`-th
variable of the disaggregation set, record `var == Σ disaggregated
copies` at index `i`. -/
def disaggConsAux (dis : ℕ → ℕ → ℕ) (rs : List DisjunctResult) :
    ℕ → List ℕ → Except GdpError (List (ℕ × Expr × Expr))
  | _, [] => .ok []
  | i, v :: vrest =>
    match disaggExprAux dis v 0 (.const 0) rs with
    | .error e => .error e
    | .ok sumE =>
      match disaggConsAux dis rs (i + 1) vrest with
      | .error e => .error e
      | .ok rest' => .ok ((i, .var v, sumE) :: rest')

/-- What one transformed disjunction datum generates: the exclusivity
(`xor`) constraint entry `orLhs = orRhs` recorded at `orIndex`, the
disaggregation constraints, and the per-disjunct outcomes. -/
structure DisjunctionResult where
  orIndex : ℕ
  orLhs : Expr
  orRhs : ℚ
  disaggCons : List (ℕ × Expr × Expr)
  disjunctResults : List DisjunctResult
deriving DecidableEq, Repr

/-- `_transformDisjunctionData` (lines 294-351): give up unless the
disjunction is an `xor`, collect the disaggregation set, transform every
disjunct, record `sum(indicator variables) = 1` at this index, and build
the disaggregation-sum constraints. -/
def transformDisjunctionData (mode : ℕ) (isFixed : ℕ → Bool)
    (bounds : ℕ → Option ℚ × Option ℚ) (dis : ℕ → ℕ → ℕ)
    (d : DisjunctionData) (index : ℕ) : Except GdpError DisjunctionResult :=
  if d.xor = false then .error .nonExclusiveDisjunction
  else
    let varSet := collectVarSet isFixed d.disjuncts
    match transformDisjunctList mode bounds dis varSet d.disjuncts 0 with
    | .error e => .error e
    | .ok rs =>
      match disaggConsAux dis rs 0 varSet with
      | .error e => .error e
      | .ok dc => .ok ⟨index, orExprOf d.disjuncts, 1, dc, rs⟩

/-- The loop of `_transformBlockData`/`_transformDisjunction` over the
active disjunctions of the transformed sub-tree (lines 206-214, 284-291):
transform each active disjunction at its running index and deactivate it,
leave inactive ones untouched. -/
def runDisjunctions (mode : ℕ) (isFixed : ℕ → Bool)
    (bounds : ℕ → Option ℚ × Option ℚ) (dis : ℕ → ℕ → ℕ) :
    List (Bool × DisjunctionData) → ℕ →
    Except GdpError (List (Bool × DisjunctionData) × List DisjunctionResult)
  | [], _ => .ok ([], [])
  | (active, d) :: rest, idx =>
    if active = true then
      match transformDisjunctionData mode isFixed bounds dis d idx with
      | .error e => .error e
      | .ok r =>
        match runDisjunctions mode isFixed bounds dis rest (idx + 1) with
        | .error e => .error e
        | .ok (rest', arts) => .ok ((false, d) :: rest', r :: arts)
    else
      match runDisjunctions mode isFixed bounds dis rest (idx + 1) with
      | .error e => .error e
      | .ok (rest', arts) => .ok ((active, d) :: rest', arts)

/-- The model as the whole-instance run observes it: how many
transformation blocks (relaxation scopes) have been added so far, and the
disjunctions of the instance with their active flags. -/
structure ModelState where
  numTransBlocks : ℕ
  disjunctions : List (Bool × DisjunctionData)

/-- `_apply_to` on the whole instance (lines 109-198, default targets):
unconditionally add a fresh transformation block (lines 123-131), then
transform every active disjunction of the instance in order. -/
def applyTo (mode : ℕ) (isFixed : ℕ → Bool)
    (bounds : ℕ → Option ℚ × Option ℚ) (dis : ℕ → ℕ → ℕ) (m : ModelState) :
    Except GdpError (ModelState × List DisjunctionResult) :=
  match runDisjunctions mode isFixed bounds dis m.disjunctions 0 with
  | .error e => .error e
  | .ok (djs, arts) => .ok (⟨m.numTransBlocks + 1, djs⟩, arts)

/-- A requested target as `_apply_to` resolves it (lines 138-160): either
`find_component` fails, or it resolves to a disjunction, to a block
carrying disjunctions, or to a component of an unsupported kind; resolved
targets carry their active flag. -/
inductive Target where
  | unresolvable : String → Target
  | disjunctionT : Bool → DisjunctionData → Target
  | blockT : Bool → List (Bool × DisjunctionData) → Target
  | otherT : Bool → Target

/-- The active flag of a resolved target. -/
def targetActive : Target → Bool
  | .unresolvable _ => true
  | .disjunctionT a _ => a
  | .blockT a _ => a
  | .otherT a => a

/-- The target loop of `_apply_to` (lines 138-160): raise for a target
that does not resolve, silently skip a resolved inactive target, and
dispatch resolved active targets by kind, raising on kinds other than
Block, Disjunct and Disjunction. -/
def processTargets (mode : ℕ) (isFixed : ℕ → Bool)
    (bounds : ℕ → Option ℚ × Option ℚ) (dis : ℕ → ℕ → ℕ) :
    List Target → Except GdpError (List DisjunctionResult)
  | [] => .ok []
  | t :: rest =>
    match t with
    | .unresolvable s => .error (.targetNotFound s)
    | .disjunctionT active d =>
      if active = false then processTargets mode isFixed bounds dis rest
      else
        match transformDisjunctionData mode isFixed bounds dis d 0 with
        | .error e => .error e
        | .ok r =>
          match processTargets mode isFixed bounds dis rest with
          | .error e => .error e
          | .ok rs => .ok (r :: rs)
    | .blockT active djs =>
      if active = false then processTargets mode isFixed bounds dis rest
      else
        match runDisjunctions mode isFixed bounds dis djs 0 with
        | .error e => .error e
        | .ok (_, arts) =>
          match processTargets mode isFixed bounds dis rest with
          | .error e => .error e
          | .ok rs => .ok (arts ++ rs)
    | .otherT active =>
      if active = false then processTargets mode isFixed bounds dis rest
      else .error .unsupportedTargetKind

/-- The spec's linear numeric check: constraint body `2x + 3`; `x` is
variable 0, the indicator `y` is variable 1, `disagg(x)` is variable 2. -/
def exBody : Expr := .add (.mul (.const 2) (.var 0)) (.const 3)

/-- Body `2x + 3`, lower bound 5, no upper bound, active. -/
def exCons : ConstraintData := ⟨exBody, some 5, none, true⟩

/-- Disaggregation substitution for the examples: `x` (variable 0) maps
to its copy, variable 2. -/
def exVarMap : ℕ → Option Expr := varMapOf [0] (fun _ => 2)

/-- Zero substitution for the examples. -/
def exZeroMap : ℕ → Option Expr := zeroMapOf [0]

/-- The lower-side constraint the linear rewrite generates for `exCons`:
`(2*disagg(x) + 3) - (1-y)*(2*0 + 3) ≥ 5*y`. -/
def exLowerRel : RelCons :=
  .geC
    (.sub (.add (.mul (.const 2) (.var 2)) (.const 3))
      (.mul (.sub (.const 1) (.var 1))
        (.add (.mul (.const 2) (.const 0)) (.const 3))))
    (.mul (.const 5) (.var 1))

/-- The spec's nonlinear numeric check: body `x*x` (degree 2). -/
def exNLBody : Expr := .mul (.var 0) (.var 0)

/-- Body `x*x`, upper bound 4, no lower bound, active. -/
def exNLCons : ConstraintData := ⟨exNLBody, none, some 4, true⟩

/-- A never-touched disjunct whose only component is an active nested
Block holding the active constraint `exCons`. -/
def nestedBlockDisjunct : DisjunctState :=
  ⟨true, 1, false, true, false, false, [.blockC true [.constraintC exCons]]⟩

/-- A disjunct as an incompatible (non-chull) relaxation leaves it:
deactivated, `_gdp_transformation_info` is a dict with `relaxed = True`
and no `chull` entry. -/
def bigmRelaxedDisjunct : DisjunctState := ⟨false, 1, true, true, true, false, []⟩

/-- A disjunct already relaxed by chull: deactivated, `relaxed = True`,
`chull` entry present. -/
def chullMarkedDisjunct : DisjunctState := ⟨false, 1, true, true, true, true, []⟩

/-- A fresh active disjunct with no components. -/
def freshEmptyDisjunct (y : ℕ) : DisjunctState := ⟨true, y, false, true, false, false, []⟩

/-- A disjunction with `xor = False`. -/
def xorFalseDisjunction : DisjunctionData := ⟨false, []⟩

/-- An `exactly-one` disjunction over two fresh empty disjuncts with
indicator variables 10 and 11. -/
def exDisjunction : DisjunctionData :=
  ⟨true, [freshEmptyDisjunct 10, freshEmptyDisjunct 11]⟩

/-- What `transformDisjunctionData` yields on `exDisjunction` at index 5. -/
def exDisjResult : DisjunctionResult :=
  ⟨5, .add (.add (.const 0) (.var 10)) (.var 11), 1, [],
    [.relaxed ⟨[], []⟩, .relaxed ⟨[], []⟩]⟩

/-- What `transformDisjunctionData` yields on `exDisjunction` at index 0
(the index the whole-instance run assigns it). -/
def exRunArtifact : DisjunctionResult :=
  ⟨0, .add (.add (.const 0) (.var 10)) (.var 11), 1, [],
    [.relaxed ⟨[], []⟩, .relaxed ⟨[], []⟩]⟩

/-- A model holding one active copy of `exDisjunction`. -/
def exModel : ModelState := ⟨0, [(true, exDisjunction)]⟩

/-- `exModel` after one transformation run: one relaxation scope added,
the disjunction deactivated. -/
def exModelAfter1 : ModelState := ⟨1, [(false, exDisjunction)]⟩

/-- A disjunct with indicator variable 10 whose only component is the
active linear constraint `exCons`. -/
def linConsDisjunct : DisjunctState :=
  ⟨true, 10, false, true, false, false, [.constraintC exCons]⟩

/-- An `exactly-one` disjunction whose constraints are all linear. -/
def linDisjunction : DisjunctionData :=
  ⟨true, [linConsDisjunct, freshEmptyDisjunct 11]⟩

/-- A model holding one active all-linear disjunction. -/
def linModel : ModelState := ⟨0, [(true, linDisjunction)]⟩

instance exceptDecEq {ε α : Type} [DecidableEq ε] [DecidableEq α] :
    DecidableEq (Except ε α) := fun x y =>
  match x, y with
  | .ok a, .ok b =>
    if h : a = b then isTrue (by rw [h])
    else isFalse (by intro hh; cases hh; exact h rfl)
  | .error a, .error b =>
    if h : a = b then isTrue (by rw [h])
    else isFalse (by intro hh; cases hh; exact h rfl)
  | .ok _, .error _ => isFalse (by intro hh; cases hh)
  | .error _, .ok _ => isFalse (by intro hh; cases hh)

theorem isNL_eq_false {e : Expr}
    (h : e.polyDegree = some 0 ∨ e.polyDegree = some 1) : isNL e = false := by
  rcases h with h | h <;> simp [isNL, h]

/-- C1: for every active constraint of polynomial degree 0 or 1 the
rewriter emits, for each bound present on the original, the constraint
`expr - (1-y)*h0 ≥ L*y` (lower side) and `expr - (1-y)*h0 ≤ U*y` (upper
side), where `expr` is the body with each disaggregation-set variable
replaced by its disaggregated copy (no scaling by `y`) and `h0` is the
body with every disaggregation-set variable replaced by 0; in particular
on body `2x+3` with lower bound 5 the generated lower constraint is
exactly the one emitted and is equivalent to `2*disagg(x) ≥ 2y`. -/
theorem linear_constraint_rewrite (mode y : ℕ) (dset : List ℕ) (dis : ℕ → ℕ)
    (c : ConstraintData) (hact : c.active = true)
    (hdeg : c.body.polyDegree = some 0 ∨ c.body.polyDegree = some 1) :
    xformConstraintData mode y (varMapOf dset dis) (zeroMapOf dset) c =
      .ok (specLinearRewrite y (c.body.subst (varMapOf dset dis))
        (c.body.subst (zeroMapOf dset)) c.lower c.upper) ∧
    xformConstraintData 3 1 exVarMap exZeroMap exCons = .ok [⟨.lb, exLowerRel⟩] ∧
    (∀ ρ : ℕ → ℚ, exLowerRel.holds ρ ↔ 2 * ρ 1 ≤ 2 * ρ 2) := by
  refine ⟨?_, by rfl, ?_⟩
  · have hNL : isNL c.body = false := isNL_eq_false hdeg
    simp only [xformConstraintData, hact, hNL, specLinearRewrite]
    cases c.lower <;> cases c.upper <;> simp
  · intro ρ
    simp only [exLowerRel, RelCons.holds, Expr.eval]
    constructor <;> intro h <;> nlinarith [h]

/-- Witness for `linear_constraint_rewrite` at the spec's numeric check. -/
theorem linear_constraint_rewrite_witness :
    exCons.active = true ∧ exBody.polyDegree = some 1 ∧
    xformConstraintData 3 1 exVarMap exZeroMap exCons =
      .ok (specLinearRewrite 1 (exBody.subst exVarMap) (exBody.subst exZeroMap)
        (some 5) none) :=
  ⟨rfl, by decide,
    (linear_constraint_rewrite 3 1 [0] (fun _ => 2) exCons rfl
      (Or.inr (by decide))).1⟩

/-- C2: for every active constraint whose degree is neither 0 nor 1, the
numerically-robust mode rewrites the body to
`((1-EPS)*y+EPS) * body[v := disagg(v)/((1-EPS)*y+EPS)] - EPS*h0*(1-y)`
with `EPS = 1e-2` and `h0` the original (unsubstituted) body with every
disaggregation-set variable replaced by 0, and emits `expr ≥ L*y` resp.
`expr ≤ U*y` for each bound present. -/
theorem fsg_nonlinear_rewrite (y : ℕ) (dset : List ℕ) (dis : ℕ → ℕ)
    (c : ConstraintData) (hact : c.active = true) (hNL : isNL c.body = true) :
    xformConstraintData NL_Mode_FurmanSawayaGrossmann y (varMapOf dset dis)
        (zeroMapOf dset) c =
      .ok (specNLRewrite y
        (specFSGBody y c.body (varMapOf dset dis)
          (c.body.subst (zeroMapOf dset))) c.lower c.upper) ∧
    EPS = (0.01 : ℚ) := by
  refine ⟨?_, by norm_num [EPS]⟩
  simp only [xformConstraintData, NL_Mode_FurmanSawayaGrossmann,
    NL_Mode_LeeGrossmann, NL_Mode_GrossmannLee, hact, hNL, specNLRewrite,
    specFSGBody]
  cases c.lower <;> cases c.upper <;> simp

/-- Witness for `fsg_nonlinear_rewrite` at the spec's nonlinear check
(body `x*x`, upper bound 4). -/
theorem fsg_nonlinear_rewrite_witness :
    exNLCons.active = true ∧ isNL exNLBody = true ∧
    xformConstraintData NL_Mode_FurmanSawayaGrossmann 1 exVarMap exZeroMap
        exNLCons =
      .ok (specNLRewrite 1
        (specFSGBody 1 exNLBody exVarMap (exNLBody.subst exZeroMap))
        none (some 4)) :=
  ⟨rfl, by decide,
    (fsg_nonlinear_rewrite 1 [0] (fun _ => 2) exNLCons rfl (by decide)).1⟩

/-- C9 (amended): an unrecognized formulation mode makes the rewriter fail
with the unknown-mode error exactly when it reaches an active constraint
of degree neither 0 nor 1; linear constraints (and hence all-linear runs)
are unaffected. -/
theorem unknown_mode_errors_on_nonlinear (mode y : ℕ)
    (vm zm : ℕ → Option Expr) (c : ConstraintData)
    (hact : c.active = true) (hNL : isNL c.body = true)
    (h1 : mode ≠ NL_Mode_LeeGrossmann) (h2 : mode ≠ NL_Mode_GrossmannLee)
    (h3 : mode ≠ NL_Mode_FurmanSawayaGrossmann) :
    xformConstraintData mode y vm zm c = .error .unknownNLMode := by
  simp [xformConstraintData, hact, hNL, h1, h2, h3]

/-- Witness for `unknown_mode_errors_on_nonlinear` at mode 99. -/
theorem unknown_mode_errors_on_nonlinear_witness :
    exNLCons.active = true ∧ isNL exNLBody = true ∧
    xformConstraintData 99 1 exVarMap exZeroMap exNLCons =
      .error .unknownNLMode :=
  ⟨rfl, by decide,
    unknown_mode_errors_on_nonlinear 99 1 exVarMap exZeroMap exNLCons rfl
      (by decide) (by decide) (by decide) (by decide)⟩

/-- C9 counterexample: a whole run under the unrecognized mode 99 on a
model whose constraints are all linear completes successfully and
produces a transformed model (one relaxation scope, one transformed
disjunction), so an invalid mode does not abort every run. -/
theorem unknown_mode_linear_run_succeeds :
    (applyTo 99 (fun _ => false) (fun _ => (some 0, some 10))
        (fun j v => 20 + 2 * j + v) linModel).map
      (fun p => (p.1.numTransBlocks, p.2.length)) = .ok (1, 1) := by rfl

/-- C3: transforming a disjunct whose only component is an active nested
Block holding an active constraint does not rewrite that constraint: the
dispatch of the Block handler fails with the interpreter's NameError,
because `_transform_block_on_disjunct` passes the undefined name `varSet`
(and the wrong argument count) to `_transform_block_components`. -/
theorem nested_block_rewrite_raises :
    transformDisjunct 3 (fun _ => (some 0, some 10)) (fun v => v + 2)
      nestedBlockDisjunct [0] = .error (.nameError "varSet") := by rfl

/-- C4 counterexample: on a disjunct already relaxed by an incompatible
(non-chull) strategy the Disjunct Transformer is not a no-op: it builds a
relaxation record again (here with a fresh disaggregated copy of variable
0 and its two bound constraints) instead of leaving the disjunct alone. -/
theorem incompatible_strategy_not_noop :
    transformDisjunct 3 (fun _ => (some 0, some 10)) (fun v => v + 2)
      bigmRelaxedDisjunct [0] =
      .ok (.relaxed ⟨[⟨0, .mul (.var 1) (.const 0), .var 2, .var 2,
        .mul (.var 1) (.const 10)⟩], []⟩) ∧
    transformDisjunct 3 (fun _ => (some 0, some 10)) (fun v => v + 2)
      bigmRelaxedDisjunct [0] ≠ .ok .skipped := by
  exact ⟨by rfl, by decide⟩

/-- C4 (amended): only a disjunct whose info dict already carries a
`chull` entry is skipped as a no-op; a deactivated disjunct relaxed by an
incompatible strategy (`relaxed` set, no `chull` entry) is transformed
again by chull — whenever the call returns it has built a fresh
relaxation record. -/
theorem disjunct_retransform_behavior :
    (∀ (mode : ℕ) (bounds : ℕ → Option ℚ × Option ℚ) (dis : ℕ → ℕ)
        (st : DisjunctState) (varSet : List ℕ),
      st.hasInfo = true → st.infoIsDict = true → st.infoChull = true →
      (st.active = true ∨ st.infoRelaxed = true) →
      transformDisjunct mode bounds dis st varSet = .ok .skipped) ∧
    (∀ (mode : ℕ) (bounds : ℕ → Option ℚ × Option ℚ) (dis : ℕ → ℕ)
        (st : DisjunctState) (varSet : List ℕ) (r : DisjunctResult),
      st.hasInfo = true → st.infoIsDict = true → st.infoRelaxed = true →
      st.infoChull = false → st.active = false →
      transformDisjunct mode bounds dis st varSet = .ok r →
      ∃ rec, r = .relaxed rec) := by
  constructor
  · intro mode bounds dis st varSet h1 h2 h3 h4
    rcases h4 with h4 | h4 <;> simp [transformDisjunct, h1, h2, h3, h4]
  · intro mode bounds dis st varSet r h1 h2 h3 h4 h5
    simp only [transformDisjunct, h1, h2, h3, h4, h5]
    simp only [Bool.and_self, Bool.and_false, and_false, if_false]
    cases hPV : processVarSet st.indicatorVar bounds dis varSet with
    | error e => simp
    | ok bcs =>
      cases hTC : transformBlockComponents mode st.indicatorVar
          (varMapOf varSet dis) (zeroMapOf varSet) st.comps with
      | error e => simp
      | ok rws =>
        intro h
        injection h with h
        exact ⟨⟨bcs, rws⟩, h.symm⟩

/-- Witness for `disjunct_retransform_behavior`: a chull-marked disjunct
is skipped; the bigm-relaxed disjunct is relaxed again. -/
theorem disjunct_retransform_behavior_witness :
    transformDisjunct 3 (fun _ => (some 0, some 10)) (fun v => v + 2)
      chullMarkedDisjunct [] = .ok .skipped ∧
    (∃ rec, DisjunctResult.relaxed ⟨[], []⟩ = DisjunctResult.relaxed rec) := by
  constructor
  · exact disjunct_retransform_behavior.1 3 (fun _ => (some 0, some 10))
      (fun v => v + 2) chullMarkedDisjunct [] rfl rfl rfl (Or.inr rfl)
  · exact disjunct_retransform_behavior.2 3 (fun _ => (some 0, some 10))
      (fun v => v + 2) bigmRelaxedDisjunct [] (.relaxed ⟨[], []⟩)
      rfl rfl rfl rfl rfl (by rfl)

theorem processVarSet_error_of_missing (y : ℕ)
    (bounds : ℕ → Option ℚ × Option ℚ) (dis : ℕ → ℕ) :
    ∀ varSet : List ℕ,
    (∃ v ∈ varSet, (bounds v).1 = none ∨ (bounds v).2 = none) →
    ∃ w, processVarSet y bounds dis varSet = .error (.unboundedVariable w) := by
  intro varSet
  induction varSet with
  | nil => rintro ⟨v, hv, _⟩; exact absurd hv (List.not_mem_nil v)
  | cons a rest ih =>
    rintro ⟨v, hv, hmiss⟩
    rcases List.mem_cons.mp hv with rfl | hv'
    · cases hb1 : (bounds v).1 with
      | none => exact ⟨v, by simp [processVarSet, hb1]⟩
      | some lb =>
        cases hb2 : (bounds v).2 with
        | none => exact ⟨v, by simp [processVarSet, hb1, hb2]⟩
        | some ub =>
          rcases hmiss with h | h
          · rw [hb1] at h; cases h
          · rw [hb2] at h; cases h
    · cases hb1 : (bounds a).1 with
      | none => exact ⟨a, by simp [processVarSet, hb1]⟩
      | some lb =>
        cases hb2 : (bounds a).2 with
        | none => exact ⟨a, by simp [processVarSet, hb1, hb2]⟩
        | some ub =>
          obtain ⟨w, hw⟩ := ih ⟨v, hv', hmiss⟩
          exact ⟨w, by simp [processVarSet, hb1, hb2, hw]⟩

theorem processVarSet_all_bounded (y : ℕ)
    (bounds : ℕ → Option ℚ × Option ℚ) (dis : ℕ → ℕ) :
    ∀ varSet : List ℕ,
    (∀ v ∈ varSet, ((bounds v).1).isSome ∧ ((bounds v).2).isSome) →
    processVarSet y bounds dis varSet = .ok (varSet.map (fun v =>
      ⟨v, .mul (.var y) (.const (((bounds v).1).getD 0)), .var (dis v),
        .var (dis v), .mul (.var y) (.const (((bounds v).2).getD 0))⟩)) := by
  intro varSet
  induction varSet with
  | nil => intro _; rfl
  | cons a rest ih =>
    intro h
    obtain ⟨h1, h2⟩ := h a (List.mem_cons_self a rest)
    obtain ⟨lb, hlb⟩ := Option.isSome_iff_exists.mp h1
    obtain ⟨ub, hub⟩ := Option.isSome_iff_exists.mp h2
    have hrest := ih (fun v hv => h v (List.mem_cons_of_mem a hv))
    simp [processVarSet, hlb, hub, hrest]

/-- C5: for a fresh disjunct, a disaggregation-set variable with a missing
lower or upper bound makes the Disjunct Transformer fail with the
unbounded-variable error (no default is assumed); when every variable has
both bounds, the two constraints `indicator*lb ≤ disaggregated` and
`disaggregated ≤ indicator*ub` are emitted for each variable. -/
theorem disaggregation_bounds_enforced :
    (∀ (mode : ℕ) (bounds : ℕ → Option ℚ × Option ℚ) (dis : ℕ → ℕ)
        (st : DisjunctState) (varSet : List ℕ),
      st.active = true → st.hasInfo = false →
      (∃ v ∈ varSet, (bounds v).1 = none ∨ (bounds v).2 = none) →
      ∃ w, transformDisjunct mode bounds dis st varSet =
        .error (.unboundedVariable w)) ∧
    (∀ (mode : ℕ) (bounds : ℕ → Option ℚ × Option ℚ) (dis : ℕ → ℕ)
        (st : DisjunctState) (varSet : List ℕ),
      st.active = true → st.hasInfo = false → st.comps = [] →
      (∀ v ∈ varSet, ((bounds v).1).isSome ∧ ((bounds v).2).isSome) →
      transformDisjunct mode bounds dis st varSet =
        .ok (.relaxed ⟨varSet.map (fun v =>
          ⟨v, .mul (.var st.indicatorVar) (.const (((bounds v).1).getD 0)),
            .var (dis v), .var (dis v),
            .mul (.var st.indicatorVar) (.const (((bounds v).2).getD 0))⟩),
          []⟩)) := by
  constructor
  · intro mode bounds dis st varSet hact hinfo hmiss
    obtain ⟨w, hw⟩ := processVarSet_error_of_missing st.indicatorVar bounds dis
      varSet hmiss
    exact ⟨w, by simp [transformDisjunct, hact, hinfo, hw]⟩
  · intro mode bounds dis st varSet hact hinfo hcomps hbnd
    have hpv := processVarSet_all_bounded st.indicatorVar bounds dis varSet hbnd
    simp [transformDisjunct, hact, hinfo, hcomps, hpv, transformBlockComponents]

/-- Witness for `disaggregation_bounds_enforced`: variable 0 lacking a
lower bound aborts; with bounds [0, 10] the two big-M constraints come
out. -/
theorem disaggregation_bounds_enforced_witness :
    (∃ w, transformDisjunct 3 (fun _ => (none, some 10)) (fun v => v + 2)
      (freshEmptyDisjunct 1) [0] = .error (.unboundedVariable w)) ∧
    transformDisjunct 3 (fun _ => ((some 0 : Option ℚ), (some 10 : Option ℚ)))
      (fun v => v + 2) (freshEmptyDisjunct 1) [0] =
      .ok (.relaxed ⟨[0].map (fun v =>
        ⟨v, .mul (.var 1) (.const 0), .var (v + 2), .var (v + 2),
          .mul (.var 1) (.const 10)⟩), []⟩) := by
  constructor
  · exact disaggregation_bounds_enforced.1 3 (fun _ => (none, some 10))
      (fun v => v + 2) (freshEmptyDisjunct 1) [0] rfl rfl
      ⟨0, List.mem_singleton.mpr rfl, Or.inl rfl⟩
  · exact disaggregation_bounds_enforced.2 3
      (fun _ => ((some 0 : Option ℚ), (some 10 : Option ℚ)))
      (fun v => v + 2) (freshEmptyDisjunct 1) [0] rfl rfl rfl
      (by intro v hv; exact ⟨rfl, rfl⟩)

/-- C6: while traversing a disjunct's components, every active component
whose kind has no registered handler aborts the run with the
unsupported-kind error (it is never silently dropped), while components
of the pass-through kinds (Var, Connector, Param, Set, Suffix) are
skipped without error. -/
theorem handler_table_dispatch :
    (∀ (mode y : ℕ) (vm zm : ℕ → Option Expr) (comps : List Comp),
      (∀ c ∈ comps, handlersGet c = .passThrough) →
      transformBlockComponents mode y vm zm comps = .ok []) ∧
    (∀ (mode y : ℕ) (vm zm : ℕ → Option Expr) (pre : List Comp) (c : Comp)
        (rest : List Comp),
      (∀ p ∈ pre, handlersGet p = .passThrough) →
      handlersGet c = .missing → compActive c = true →
      transformBlockComponents mode y vm zm (pre ++ c :: rest) =
        .error .unsupportedEntityKind) := by
  constructor
  · intro mode y vm zm comps
    induction comps with
    | nil => intro _; rfl
    | cons a rest ih =>
      intro h
      have ha := h a (List.mem_cons_self a rest)
      have hrest := ih (fun p hp => h p (List.mem_cons_of_mem a hp))
      by_cases hact : compActive a = false <;>
        simp [transformBlockComponents, hact, ha, hrest]
  · intro mode y vm zm pre c rest
    induction pre with
    | nil =>
      intro _ hc hact
      have : compActive c = false ↔ False := by simp [hact]
      simp [transformBlockComponents, this, hc]
    | cons p pre' ih =>
      intro h hc hact
      have hp := h p (List.mem_cons_self p pre')
      have hrec := ih (fun q hq => h q (List.mem_cons_of_mem p hq)) hc hact
      by_cases hpa : compActive p = false <;>
        simp [transformBlockComponents, hpa, hp, hrec]

/-- Witness for `handler_table_dispatch`: Var and Param components pass
through; an active Objective (a kind absent from the handler table) after
a Suffix aborts. -/
theorem handler_table_dispatch_witness :
    transformBlockComponents 3 1 (fun _ => none) (fun _ => none)
      [.varC, .paramC] = .ok [] ∧
    transformBlockComponents 3 1 (fun _ => none) (fun _ => none)
      [.suffixC, .objectiveC true] = .error .unsupportedEntityKind := by
  constructor
  · refine handler_table_dispatch.1 3 1 (fun _ => none) (fun _ => none)
      [.varC, .paramC] ?_
    intro c hc
    rcases List.mem_cons.mp hc with rfl | hc'
    · rfl
    · rcases List.mem_cons.mp hc' with rfl | hc''
      · rfl
      · exact absurd hc'' (List.not_mem_nil c)
  · refine handler_table_dispatch.2 3 1 (fun _ => none) (fun _ => none)
      [.suffixC] (.objectiveC true) [] ?_ rfl rfl
    intro p hp
    rcases List.mem_cons.mp hp with rfl | hp'
    · rfl
    · exact absurd hp' (List.not_mem_nil p)

theorem orExpr_eval_aux (ρ : ℕ → ℚ) :
    ∀ (l : List DisjunctState) (e : Expr),
    (l.foldl (fun e dj => .add e (.var dj.indicatorVar)) e).eval ρ =
      e.eval ρ + (l.map (fun dj => ρ dj.indicatorVar)).sum := by
  intro l
  induction l with
  | nil => intro e; simp
  | cons a rest ih =>
    intro e
    simp only [List.foldl_cons, List.map_cons, List.sum_cons, ih, Expr.eval]
    ring

/-- C7: a disjunction whose exclusivity kind is not exactly-one is
rejected up front with the non-exclusive error, and for every
successfully transformed disjunction datum the exclusivity constraint
recorded at its index says that the sum of the indicator variables of all
its disjuncts equals 1. -/
theorem exclusivity_constraint_sum :
    (∀ (mode : ℕ) (isFixed : ℕ → Bool) (bounds : ℕ → Option ℚ × Option ℚ)
        (dis : ℕ → ℕ → ℕ) (d : DisjunctionData) (index : ℕ),
      d.xor = false →
      transformDisjunctionData mode isFixed bounds dis d index =
        .error .nonExclusiveDisjunction) ∧
    (∀ (mode : ℕ) (isFixed : ℕ → Bool) (bounds : ℕ → Option ℚ × Option ℚ)
        (dis : ℕ → ℕ → ℕ) (d : DisjunctionData) (index : ℕ)
        (r : DisjunctionResult),
      transformDisjunctionData mode isFixed bounds dis d index = .ok r →
      r.orIndex = index ∧ r.orRhs = 1 ∧
      ∀ ρ : ℕ → ℚ, r.orLhs.eval ρ =
        (d.disjuncts.map (fun dj => ρ dj.indicatorVar)).sum) := by
  constructor
  · intro mode isFixed bounds dis d index hxor
    simp [transformDisjunctionData, hxor]
  · intro mode isFixed bounds dis d index r h
    cases hxor : d.xor with
    | false => simp [transformDisjunctionData, hxor] at h
    | true =>
      simp only [transformDisjunctionData, hxor, Bool.true_eq_false,
        if_false] at h
      cases hTL : transformDisjunctList mode bounds dis
          (collectVarSet isFixed d.disjuncts) d.disjuncts 0 with
      | error e => rw [hTL] at h; cases h
      | ok rs =>
        rw [hTL] at h
        dsimp only at h
        cases hDC : disaggConsAux dis rs 0
            (collectVarSet isFixed d.disjuncts) with
        | error e => rw [hDC] at h; cases h
        | ok dc =>
          rw [hDC] at h
          dsimp only at h
          injection h with h
          subst h
          refine ⟨rfl, rfl, ?_⟩
          intro ρ
          simp [orExprOf, orExpr_eval_aux ρ d.disjuncts (.const 0), Expr.eval]

/-- Witness for `exclusivity_constraint_sum`: the xor=False disjunction is
rejected; `exDisjunction` transformed at index 5 records the constraint
`(0 + y10) + y11 = 1`, whose left side evaluates to the indicator sum
(21 under the valuation sending each variable to itself). -/
theorem exclusivity_constraint_sum_witness :
    transformDisjunctionData 3 (fun _ => false) (fun _ => (some 0, some 10))
      (fun j v => 20 + 2 * j + v) xorFalseDisjunction 0 =
      .error .nonExclusiveDisjunction ∧
    exDisjResult.orIndex = 5 ∧ exDisjResult.orRhs = 1 ∧
    exDisjResult.orLhs.eval (fun v => (v : ℚ)) = 21 := by
  have h2 := exclusivity_constraint_sum.2 3 (fun _ => false)
    (fun _ => (some 0, some 10)) (fun j v => 20 + 2 * j + v) exDisjunction 5
    exDisjResult (by rfl)
  refine ⟨exclusivity_constraint_sum.1 3 (fun _ => false)
    (fun _ => (some 0, some 10)) (fun j v => 20 + 2 * j + v)
    xorFalseDisjunction 0 rfl, h2.1, h2.2.1, ?_⟩
  rw [h2.2.2 (fun v => (v : ℚ))]
  norm_num [exDisjunction, freshEmptyDisjunct]

theorem runDisjunctions_flags_false (mode : ℕ) (isFixed : ℕ → Bool)
    (bounds : ℕ → Option ℚ × Option ℚ) (dis : ℕ → ℕ → ℕ) :
    ∀ (l : List (Bool × DisjunctionData)) (idx : ℕ)
      (l' : List (Bool × DisjunctionData)) (arts : List DisjunctionResult),
    runDisjunctions mode isFixed bounds dis l idx = .ok (l', arts) →
    ∀ p ∈ l', p.1 = false := by
  intro l
  induction l with
  | nil =>
    intro idx l' arts h p hp
    simp only [runDisjunctions] at h
    injection h with h
    cases h
    exact absurd hp (List.not_mem_nil p)
  | cons a rest ih =>
    intro idx l' arts h p hp
    obtain ⟨active, d⟩ := a
    simp only [runDisjunctions] at h
    by_cases hA : active = true
    · rw [if_pos hA] at h
      cases hTD : transformDisjunctionData mode isFixed bounds dis d idx with
      | error e => rw [hTD] at h; cases h
      | ok r =>
        rw [hTD] at h
        dsimp only at h
        cases hRD : runDisjunctions mode isFixed bounds dis rest (idx + 1) with
        | error e => rw [hRD] at h; cases h
        | ok q =>
          obtain ⟨rest', arts'⟩ := q
          rw [hRD] at h
          dsimp only at h
          injection h with h
          rw [Prod.mk.injEq] at h
          obtain ⟨h1, h2⟩ := h
          subst h1
          rcases List.mem_cons.mp hp with rfl | hp'
          · rfl
          · exact ih (idx + 1) rest' arts' hRD p hp'
    · rw [if_neg hA] at h
      cases hRD : runDisjunctions mode isFixed bounds dis rest (idx + 1) with
      | error e => rw [hRD] at h; cases h
      | ok q =>
        obtain ⟨rest', arts'⟩ := q
        rw [hRD] at h
        dsimp only at h
        injection h with h
        rw [Prod.mk.injEq] at h
        obtain ⟨h1, h2⟩ := h
        subst h1
        rcases List.mem_cons.mp hp with rfl | hp'
        · exact Bool.not_eq_true active |>.mp hA
        · exact ih (idx + 1) rest' arts' hRD p hp'

theorem runDisjunctions_all_inactive (mode : ℕ) (isFixed : ℕ → Bool)
    (bounds : ℕ → Option ℚ × Option ℚ) (dis : ℕ → ℕ → ℕ) :
    ∀ (l : List (Bool × DisjunctionData)) (idx : ℕ),
    (∀ p ∈ l, p.1 = false) →
    runDisjunctions mode isFixed bounds dis l idx = .ok (l, []) := by
  intro l
  induction l with
  | nil => intro idx _; rfl
  | cons a rest ih =>
    intro idx h
    obtain ⟨active, d⟩ := a
    have ha : active = false := h (active, d) (List.mem_cons_self _ _)
    have hrest := ih (idx + 1) (fun p hp => h p (List.mem_cons_of_mem _ hp))
    simp [runDisjunctions, ha, hrest]

/-- C8 counterexample: running the whole-instance transformation twice on
`exModel` leaves two relaxation-scope blocks where one run leaves one, so
the second run does add a new (empty) relaxation scope. -/
theorem second_run_adds_scope :
    (applyTo 3 (fun _ => false) (fun _ => (some 0, some 10))
        (fun j v => 20 + 2 * j + v) exModel).map
      (fun p => p.1.numTransBlocks) = .ok 1 ∧
    ((applyTo 3 (fun _ => false) (fun _ => (some 0, some 10))
        (fun j v => 20 + 2 * j + v) exModel).bind
      (fun p => applyTo 3 (fun _ => false) (fun _ => (some 0, some 10))
        (fun j v => 20 + 2 * j + v) p.1)).map
      (fun p => p.1.numTransBlocks) = .ok 2 ∧
    (2 : ℕ) ≠ 1 := ⟨rfl, rfl, by decide⟩

/-- C8 (amended): a second run on the result of a successful run
generates no artifacts beyond one additional, empty relaxation scope: the
disjunction list is returned unchanged and the artifact list is empty. -/
theorem second_run_only_new_scope (mode : ℕ) (isFixed : ℕ → Bool)
    (bounds : ℕ → Option ℚ × Option ℚ) (dis : ℕ → ℕ → ℕ)
    (m m1 : ModelState) (a1 : List DisjunctionResult)
    (h : applyTo mode isFixed bounds dis m = .ok (m1, a1)) :
    applyTo mode isFixed bounds dis m1 =
      .ok (⟨m1.numTransBlocks + 1, m1.disjunctions⟩, []) := by
  unfold applyTo at h ⊢
  cases hRD : runDisjunctions mode isFixed bounds dis m.disjunctions 0 with
  | error e => rw [hRD] at h; cases h
  | ok q =>
    obtain ⟨djs, arts⟩ := q
    rw [hRD] at h
    dsimp only at h
    injection h with h
    rw [Prod.mk.injEq] at h
    obtain ⟨h1, h2⟩ := h
    subst h1
    have hflags := runDisjunctions_flags_false mode isFixed bounds dis
      m.disjunctions 0 djs arts hRD
    dsimp only
    rw [runDisjunctions_all_inactive mode isFixed bounds dis djs 0 hflags]

/-- Witness for `second_run_only_new_scope` at the concrete model. -/
theorem second_run_only_new_scope_witness :
    applyTo 3 (fun _ => false) (fun _ => (some 0, some 10))
      (fun j v => 20 + 2 * j + v) exModelAfter1 =
      .ok (⟨exModelAfter1.numTransBlocks + 1, exModelAfter1.disjunctions⟩,
        []) :=
  second_run_only_new_scope 3 (fun _ => false) (fun _ => (some 0, some 10))
    (fun j v => 20 + 2 * j + v) exModel exModelAfter1 [exRunArtifact] (by rfl)

/-- C10: a requested target that resolves but is inactive is silently
skipped — the run's outcome is the one of the remaining targets — while a
target that does not resolve raises the target-not-found error. -/
theorem inactive_target_skipped :
    (∀ (mode : ℕ) (isFixed : ℕ → Bool) (bounds : ℕ → Option ℚ × Option ℚ)
        (dis : ℕ → ℕ → ℕ) (pre post : List Target) (t : Target),
      (∀ s, t ≠ .unresolvable s) → targetActive t = false →
      processTargets mode isFixed bounds dis (pre ++ t :: post) =
        processTargets mode isFixed bounds dis (pre ++ post)) ∧
    (∀ (mode : ℕ) (isFixed : ℕ → Bool) (bounds : ℕ → Option ℚ × Option ℚ)
        (dis : ℕ → ℕ → ℕ) (s : String) (rest : List Target),
      processTargets mode isFixed bounds dis (.unresolvable s :: rest) =
        .error (.targetNotFound s)) := by
  constructor
  · intro mode isFixed bounds dis pre post t hres hact
    induction pre with
    | nil =>
      cases t with
      | unresolvable s => exact absurd rfl (hres s)
      | disjunctionT a d =>
        simp only [targetActive] at hact
        simp [processTargets, hact]
      | blockT a djs =>
        simp only [targetActive] at hact
        simp [processTargets, hact]
      | otherT a =>
        simp only [targetActive] at hact
        simp [processTargets, hact]
    | cons p pre' ih =>
      cases p with
      | unresolvable s => simp [processTargets]
      | disjunctionT a d =>
        by_cases ha : a = false
        · simp [processTargets, ha, ih]
        · cases hTD : transformDisjunctionData mode isFixed bounds dis d 0 with
          | error e => simp [processTargets, ha, hTD]
          | ok r => simp [processTargets, ha, hTD, ih]
      | blockT a djs =>
        by_cases ha : a = false
        · simp [processTargets, ha, ih]
        · cases hRD : runDisjunctions mode isFixed bounds dis djs 0 with
          | error e => simp [processTargets, ha, hRD]
          | ok q => simp [processTargets, ha, hRD, ih]
      | otherT a =>
        by_cases ha : a = false
        · simp [processTargets, ha, ih]
        · simp [processTargets, ha]
  · intro mode isFixed bounds dis s rest
    rfl

/-- Witness for `inactive_target_skipped`: an inactive resolved
disjunction target is skipped; an unresolvable target raises. -/
theorem inactive_target_skipped_witness :
    processTargets 3 (fun _ => false) (fun _ => (some 0, some 10))
      (fun j v => 20 + 2 * j + v) [.disjunctionT false exDisjunction] =
      processTargets 3 (fun _ => false) (fun _ => (some 0, some 10))
        (fun j v => 20 + 2 * j + v) [] ∧
    processTargets 3 (fun _ => false) (fun _ => (some 0, some 10))
      (fun j v => 20 + 2 * j + v) [.unresolvable "missing", .otherT true] =
      .error (.targetNotFound "missing") := by
  constructor
  · exact inactive_target_skipped.1 3 (fun _ => false)
      (fun _ => (some 0, some 10)) (fun j v => 20 + 2 * j + v) [] []
      (.disjunctionT false exDisjunction) (fun s h => by cases h) rfl
  · exact inactive_target_skipped.2 3 (fun _ => false)
      (fun _ => (some 0, some 10)) (fun j v => 20 + 2 * j + v) "missing"
      [.otherT true]

end Chull
